import Mathlib

set_option autoImplicit false

namespace MatlabMCP

/-- A Python value as the MCP server's executor sees it.  Floats never have
arithmetic performed on them by the marshaller, so their payload is kept as an
abstract integer tag.  `vDouble xs` models the native `matlab.double(...)` dense
array produced from the Python list `xs`. -/
inductive PyVal where
  | vBool (b : Bool)
  | vInt (n : Int)
  | vFloat (tag : Int)
  | vStr (s : String)
  | vList (xs : List PyVal)
  | vDict (es : List (String × PyVal))
  | vDouble (xs : List PyVal)

/-- Python's `isinstance(x, (int, float))`.  In Python, `bool` is a subclass of
`int`, so booleans satisfy this test. -/
def isNumberInstance : PyVal → Bool
  | .vBool _ => true
  | .vInt _ => true
  | .vFloat _ => true
  | _ => false

mutual

/-- `MATLABExecutor._convert_to_matlab_types`: dict values are converted
recursively; a list of only numbers becomes `matlab.double(args)`; other lists
are converted element-wise; a scalar number becomes `matlab.double([args])`;
everything else is returned unchanged. -/
def convertToMatlabTypes : PyVal → PyVal
  | .vDict es => .vDict (convertEntries es)
  | .vList xs =>
      if xs.all isNumberInstance then .vDouble xs else .vList (convertList xs)
  | .vBool b => .vDouble [.vBool b]
  | .vInt n => .vDouble [.vInt n]
  | .vFloat tag => .vDouble [.vFloat tag]
  | .vStr s => .vStr s
  | .vDouble xs => .vDouble xs

def convertList : List PyVal → List PyVal
  | [] => []
  | x :: xs => convertToMatlabTypes x :: convertList xs

def convertEntries : List (String × PyVal) → List (String × PyVal)
  | [] => []
  | (k, v) :: es => (k, convertToMatlabTypes v) :: convertEntries es

end

/-! ### Python string primitives

The executor manipulates Python strings with `strip`, `replace`, slicing,
`startswith` and `endswith`.  They are embedded here as functions on the
character list underlying a Lean `String`, so that every definition reduces in
the kernel.  `pyIsSpace` is the ASCII part of the whitespace class stripped by
Python's `str.strip()`. -/

def pyIsSpace (c : Char) : Bool :=
  c == ' ' || c == '\t' || c == '\n' || c == '\x0d' || c == '\x0b' || c == '\x0c'

/-- Python `s.strip()`: remove leading and trailing whitespace. -/
def pyStrip (s : String) : String :=
  ⟨((s.data.dropWhile pyIsSpace).reverse.dropWhile pyIsSpace).reverse⟩

/-- Python `s.startswith(pre)`. -/
def pyStartsWith (s pre : String) : Bool :=
  List.isPrefixOf pre.data s.data

/-- Python `s.endswith(suf)`. -/
def pyEndsWithM (s suf : String) : Bool :=
  List.isSuffixOf suf.data s.data

/-- Python `s.replace(' ', '_')` (the pattern is a single character, so the
replacement is a character map). -/
def pyReplaceSpace (s : String) : String :=
  ⟨s.data.map (fun c => if c == ' ' then '_' else c)⟩

/-- Python `len(s)`: the number of code points. -/
def pyLen (s : String) : Nat := s.data.length

/-- Python `s[:n]`. -/
def pyTake (s : String) (n : Nat) : String := ⟨s.data.take n⟩

/-- Python `s[:-n]` for `n ≤ len(s)`. -/
def pyDropRight (s : String) (n : Nat) : String := ⟨s.data.take (s.data.length - n)⟩

/-! ### Workspace snapshot (`MATLABExecutor._get_workspace_variables`) -/

/-- `MAX_OUTPUT_LENGTH` from the module configuration block. -/
def MAX_OUTPUT_LENGTH : Nat := 1000

/-- The value transformation of `_get_workspace_variables`:
`if len(val_str) > MAX_OUTPUT_LENGTH: val_str = val_str[:MAX_OUTPUT_LENGTH] + "... [truncated]"`. -/
def truncateVal (s : String) : String :=
  if MAX_OUTPUT_LENGTH < pyLen s then pyTake s MAX_OUTPUT_LENGTH ++ "... [truncated]" else s

/-- `clean_var_name = var.strip().replace(' ', '_')`. -/
def cleanVarName (v : String) : String :=
  pyReplaceSpace (pyStrip v)

/-- Insertion into a Python `dict`, modelled on an ordered association list:
assigning to an existing key overwrites in place, a new key is appended. -/
def dictInsert (d : List (String × String)) (k v : String) : List (String × String) :=
  if d.any (fun p => p.1 = k) then
    d.map (fun p => if p.1 = k then (k, v) else p)
  else
    d ++ [(k, v)]

/-- Python's `exclude or ['args']`: `None` and the empty list are falsy. -/
def resolveExclude : Option (List String) → List String
  | none => ["args"]
  | some [] => ["args"]
  | some l => l

/-- One iteration of the `for var in var_names` loop of
`_get_workspace_variables`, acting on the accumulated dict. -/
def snapshotStep (excl : List String) (acc : List (String × String))
    (nv : String × String) : List (String × String) :=
  if nv.1 ∈ excl then acc
  else dictInsert acc (cleanVarName nv.1) (truncateVal nv.2)

/-- `MATLABExecutor._get_workspace_variables(exclude)`: the interpreter's
workspace is presented as the association list of variable names (as returned
by `who`) with the display string `str(val)` of each value. -/
def getWorkspaceVariables (exclude : Option (List String))
    (workspace : List (String × String)) : List (String × String) :=
  workspace.foldl (snapshotStep (resolveExclude exclude)) []

/-- A MATLAB variable name as produced by `who`: a nonempty run of
alphanumerics and underscores. -/
def isIdentChar (c : Char) : Bool := c.isAlphanum || c == '_'

def isMatlabName (s : String) : Bool :=
  !s.data.isEmpty && s.data.all isIdentChar

/-- A valid MATLAB identifier in the strict sense: a letter followed by
letters, digits and underscores. -/
def isMatlabIdent (s : String) : Bool :=
  match s.data with
  | [] => false
  | c :: rest => c.isAlpha && rest.all isIdentChar

/-! ### Filesystem

The working directory's storage, as the executor observes it: an association
list from path to file content.  `unlink(missing_ok=True)` never fails, and
writing replaces any previous content. -/

abbrev FS : Type := List (String × String)

def fsExists (fs : FS) (p : String) : Bool := List.any fs (fun e => e.1 = p)

def fsRead (fs : FS) (p : String) : String :=
  (Option.map Prod.snd (List.find? (fun e => e.1 = p) fs)).getD ""

def fsUnlink (fs : FS) (p : String) : FS := List.filter (fun e => ¬ e.1 = p) fs

def fsWrite (fs : FS) (p c : String) : FS := fsUnlink fs p ++ [(p, c)]

/-! ### Exceptions and outcomes -/

/-- The Python exception kinds that flow through the executor:
`FileNotFoundError` and `ValueError` raised by the server's own validation,
`RuntimeError` produced by the pipeline's rewrapping, and the MATLAB engine's
native exception type for errors raised by the interpreter binding. -/
inductive PyExn where
  | fileNotFound (msg : String)
  | valueError (msg : String)
  | runtimeError (msg : String)
  | engineError (msg : String)
deriving Repr, DecidableEq

/-- Python `str(e)` on an exception: its message. -/
def exnMsg : PyExn → String
  | .fileNotFound m => m
  | .valueError m => m
  | .runtimeError m => m
  | .engineError m => m

/-- The outcome of running a fragment of Python code: a value, or a raised
exception propagating to the caller. -/
inductive Outcome (α : Type) where
  | ok (a : α)
  | raised (e : PyExn)
deriving Repr, DecidableEq

/-! ### The interpreter as an oracle

The MATLAB engine is an external process; the executor only observes its
responses.  An `EngineSpec` fixes one behaviour of the engine for one
invocation: which of the issued commands raise, whether the diary file got
written (and with what text), how many figures are open, the bytes `saveas`
writes for each, the function-call return value as a function of the marshalled
arguments, and the post-execution workspace as a function of the marshalled
`args` binding. -/
structure EngineSpec where
  closeRaises : Bool
  closeMsg : String
  diaryOnRaises : Bool
  diaryOnMsg : String
  runRaises : Bool
  runMsg : String
  writesOutput : Bool
  outputText : String
  returnValue : List PyVal → String
  figHandles : Nat
  figSaveRaises : Nat → Bool
  figBytes : Nat → String
  workspaceAfter : Option PyVal → List (String × String)

/-- Path of the script/function artifact `name` inside `MATLAB_DIR` (`"src"`). -/
def scriptPath (name : String) : String := "src/" ++ name ++ ".m"

/-- The capture file of `_output_capture`: `src/temp_output_<identifier>.m`. -/
def tempOutputName (identifier : String) : String :=
  "src/temp_output_" ++ identifier ++ ".m"

/-- The per-figure file of `_capture_figures`: `src/temp_fig_<i>.png`. -/
def tempFigName (i : Nat) : String :=
  "src/temp_fig_" ++ toString i ++ ".png"

/-- `MATLABExecutor._read_captured_output`: if the capture file exists, read
it, strip it, delete it and return the text; otherwise return the sentinel. -/
def readCapturedOutput (fs : FS) (tmp : String) : String × FS :=
  if fsExists fs tmp then (pyStrip (fsRead fs tmp), fsUnlink fs tmp)
  else ("No output captured", fs)

/-- The `for i, _ in enumerate(fig_handles)` loop of
`MATLABExecutor._capture_figures`, processing figures `i, i+1, ...` while `n`
remain.  Each iteration saves figure `i+1` to `temp_fig_<i>.png`, reads its
bytes, and unlinks the file in a `finally`; if `saveas` raises, the file was
not produced, the `finally` unlink is a no-op, and the exception propagates. -/
def captureFiguresFrom (eng : EngineSpec) : Nat → Nat → FS → Outcome (List String) × FS
  | _, 0, fs => (.ok [], fs)
  | i, n + 1, fs =>
      let tmp := tempFigName i
      if eng.figSaveRaises i then
        (.raised (.engineError ("saveas failed on figure " ++ toString (i + 1))), fsUnlink fs tmp)
      else
        let fs1 := fsWrite fs tmp (eng.figBytes i)
        let data := fsRead fs1 tmp
        let fs2 := fsUnlink fs1 tmp
        match captureFiguresFrom eng (i + 1) n fs2 with
        | (.ok rest, fs3) => (.ok (data :: rest), fs3)
        | (.raised e, fs3) => (.raised e, fs3)

/-- `MATLABExecutor._capture_figures`: an empty handle list short-circuits to
an empty figure list. -/
def captureFigures (eng : EngineSpec) (fs : FS) : Outcome (List String) × FS :=
  if eng.figHandles = 0 then (.ok [], fs)
  else captureFiguresFrom eng 0 eng.figHandles fs

/-! ### Execution results and the two pipeline entry points -/

/-- The result dictionary built by `execute_script` / `call_function` /
`run_file`.  Scripts populate `printedOutput`, `figures` and merge the
workspace snapshot (`vars`); function calls populate `output`, `printedOutput`
and `figures`; `run_file` stores a message under `error` when the dispatched
call raised. -/
structure ExecResult where
  printedOutput : Option String := none
  output : Option String := none
  figures : List String := []
  vars : List (String × String) := []
  error : Option String := none
deriving Repr, DecidableEq

/-- The `if args:` binding step of `execute_script`: `None` and an empty dict
are falsy and bind nothing; otherwise the dict is marshalled as a whole and
bound to the workspace name `args`. -/
def bindArgsOpt : Option (List (String × PyVal)) → Option PyVal
  | none => none
  | some [] => none
  | some es => some (convertToMatlabTypes (.vDict es))

/-- The `try:` body of `execute_script` (steps: bind `args`, enter capture,
evaluate the script, read the captured output, harvest figures, snapshot the
workspace).  The diary file exists exactly when the engine wrote console
output by the time the evaluation finished or raised. -/
def execPipelineScript (eng : EngineSpec) (fs : FS) (scriptName : String)
    (args : Option (List (String × PyVal))) : Outcome ExecResult × FS :=
  let tmp := tempOutputName scriptName
  if eng.diaryOnRaises then (.raised (.engineError eng.diaryOnMsg), fs)
  else
    let fs1 := if eng.writesOutput then fsWrite fs tmp eng.outputText else fs
    if eng.runRaises then (.raised (.engineError eng.runMsg), fs1)
    else
      let ro := readCapturedOutput fs1 tmp
      match captureFigures eng ro.2 with
      | (.raised e, fs3) => (.raised e, fs3)
      | (.ok figs, fs3) =>
          (.ok { printedOutput := some ro.1, figures := figs,
                 vars := getWorkspaceVariables none
                   (eng.workspaceAfter (bindArgsOpt args)) }, fs3)

/-- `MATLABExecutor.execute_script`: resolve the artifact (raising
`FileNotFoundError` before anything else), clear all figures (outside the
`try`, so a native engine error propagates unwrapped), then run the pipeline
body, rewrapping any exception it raises as
`RuntimeError("MATLAB execution error: " + str(e))`. -/
def executeScript (eng : EngineSpec) (fs : FS) (scriptName : String)
    (args : Option (List (String × PyVal))) : Outcome ExecResult × FS :=
  if fsExists fs (scriptPath scriptName) = false then
    (.raised (.fileNotFound ("Script " ++ scriptName ++ ".m not found")), fs)
  else if eng.closeRaises then (.raised (.engineError eng.closeMsg), fs)
  else
    match execPipelineScript eng fs scriptName args with
    | (.ok r, fs1) => (.ok r, fs1)
    | (.raised e, fs1) =>
        (.raised (.runtimeError ("MATLAB execution error: " ++ exnMsg e)), fs1)

/-- The `try:` body of `call_function`: marshal each positional argument,
enter capture, invoke the function and stringify its return value, read the
captured output, harvest figures. -/
def execPipelineFn (eng : EngineSpec) (fs : FS) (functionName : String)
    (args : List PyVal) : Outcome ExecResult × FS :=
  let matlabArgs := convertList args
  let tmp := tempOutputName functionName
  if eng.diaryOnRaises then (.raised (.engineError eng.diaryOnMsg), fs)
  else
    let fs1 := if eng.writesOutput then fsWrite fs tmp eng.outputText else fs
    if eng.runRaises then (.raised (.engineError eng.runMsg), fs1)
    else
      let ro := readCapturedOutput fs1 tmp
      match captureFigures eng ro.2 with
      | (.raised e, fs3) => (.raised e, fs3)
      | (.ok figs, fs3) =>
          (.ok { output := some (eng.returnValue matlabArgs),
                 printedOutput := some ro.1, figures := figs }, fs3)

/-- `MATLABExecutor.call_function`: same boundary structure as
`execute_script` — `FileNotFoundError` for a missing artifact, figure clearing
outside the `try`, and rewrapping of pipeline exceptions as `RuntimeError`. -/
def callFunction (eng : EngineSpec) (fs : FS) (functionName : String)
    (args : List PyVal) : Outcome ExecResult × FS :=
  if fsExists fs (scriptPath functionName) = false then
    (.raised (.fileNotFound ("Function " ++ functionName ++ ".m not found")), fs)
  else if eng.closeRaises then (.raised (.engineError eng.closeMsg), fs)
  else
    match execPipelineFn eng fs functionName args with
    | (.ok r, fs1) => (.ok r, fs1)
    | (.raised e, fs1) =>
        (.raised (.runtimeError ("MATLAB execution error: " ++ exnMsg e)), fs1)

/-! ### `run_file` -/

/-- Python's lexicographic string order (code-point comparison), used by
`sorted(args.keys())`. -/
def charListLe : List Char → List Char → Bool
  | [], _ => true
  | _ :: _, [] => false
  | a :: as, b :: bs =>
      if a.val < b.val then true
      else if b.val < a.val then false
      else charListLe as bs

def pyStrLe (a b : String) : Bool := charListLe a.data b.data

def insertSortedKey (x : String) : List String → List String
  | [] => [x]
  | y :: ys => if pyStrLe x y then x :: y :: ys else y :: insertSortedKey x ys

/-- Python `sorted` on a list of strings (insertion sort; stability is
irrelevant since dict keys are distinct). -/
def sortStrings : List String → List String
  | [] => []
  | x :: xs => insertSortedKey x (sortStrings xs)

def dictKeys (es : List (String × PyVal)) : List String := es.map Prod.fst

/-- Python `args[k]` on the dict `es`. -/
def dictGet (es : List (String × PyVal)) (k : String) : PyVal :=
  (Option.map Prod.snd (List.find? (fun e => e.1 = k) es)).getD (.vStr "")

/-- The argument reshaping of `run_file` for the function branch:
`[args[k] for k in sorted(args.keys())] if args else []`
(`None` and the empty dict are falsy). -/
def runFileArgsList : Option (List (String × PyVal)) → List PyVal
  | none => []
  | some [] => []
  | some es => (sortStrings (dictKeys es)).map (dictGet es)

/-- `run_file` path normalisation: append `.m` when missing. -/
def withMExt (p : String) : String :=
  if pyEndsWithM p ".m" then p else p ++ ".m"

/-- A POSIX-absolute path starts with a slash; relative paths are resolved
under `MATLAB_DIR` (`"src"`). -/
def resolvePath (p : String) : String :=
  if pyStartsWith p "/" then p else "src/" ++ p

/-- `Path.stem`: the final path component without its `.m` suffix. -/
def lastComponent (p : String) : String :=
  ⟨((p.data.reverse.takeWhile (fun c => ¬ c == '/'))).reverse⟩

def stemOf (p : String) : String :=
  let base := lastComponent p
  if pyEndsWithM base ".m" then pyDropRight base 2 else base

/-- The `except Exception` clause of `run_file`: a raised exception from the
dispatched call is converted into a result record whose only populated field
is `error` (the `result` dict was still empty at the raise point). -/
def runFileCatch : Outcome ExecResult × FS → Outcome ExecResult × FS
  | (.ok r, fs1) => (.ok r, fs1)
  | (.raised e, fs1) =>
      (.ok { error := some ("MATLAB file execution error: " ++ exnMsg e) }, fs1)

/-- `MATLABExecutor.run_file`: normalise the path, raise `FileNotFoundError`
if the file is absent, read its content, and dispatch on whether the trimmed
content starts with `function` — to `call_function` with the args reduced to a
key-sorted value list, or to `execute_script` with the args unchanged.  Every
exception raised after the existence check is caught into the `error` field. -/
def runFile (eng : EngineSpec) (fs : FS) (filePath : String)
    (args : Option (List (String × PyVal))) : Outcome ExecResult × FS :=
  let full := resolvePath (withMExt filePath)
  if fsExists fs full = false then
    (.raised (.fileNotFound ("MATLAB file not found: " ++ full)), fs)
  else
    let fileName := stemOf full
    let content := fsRead fs full
    if pyStartsWith (pyStrip content) "function" then
      runFileCatch (callFunction eng fs fileName (runFileArgsList args))
    else
      runFileCatch (executeScript eng fs fileName args)

/-! ### `create_matlab_file` and the script resource -/

/-- The filename validation of `create_matlab_file`:
`file_stem.replace('_', '').isalnum()`. -/
def isValidStem (stem : String) : Bool :=
  let rest := stem.data.filter (fun c => ¬ c == '_')
  !rest.isEmpty && rest.all Char.isAlphanum

/-- The debug record `create_matlab_file` returns. -/
structure DebugInfo where
  filename : String
  codeLength : Nat
  fileCreated : Bool
  fileExistsAfterWrite : Bool
  contentMatches : Bool
  readContentLength : Nat
deriving Repr, DecidableEq

/-- The `create_matlab_file` tool: append `.m` when missing, validate the stem
(raising `ValueError` when it fails), then write `code` verbatim to
`src/<filename>` and read it back for the debug record.  The code text itself
is never inspected. -/
def createMatlabFile (fs : FS) (filename code : String) :
    Outcome DebugInfo × FS :=
  let fname := withMExt filename
  let stem := pyDropRight fname 2
  if isValidStem stem = false then
    (.raised (.valueError "Filename must contain only letters, numbers, and underscores"), fs)
  else
    let path := "src/" ++ fname
    let fs1 := fsWrite fs path code
    let readBack := fsRead fs1 path
    (.ok { filename := fname, codeLength := pyLen code, fileCreated := true,
           fileExistsAfterWrite := fsExists fs1 path,
           contentMatches := readBack = code,
           readContentLength := pyLen readBack }, fs1)

/-- The `matlab://scripts/{script_name}` resource (`get_contents`): return the
stored source text, raising `FileNotFoundError` when the script is absent. -/
def getContents (fs : FS) (scriptName : String) : Outcome String :=
  if fsExists fs (scriptPath scriptName) then .ok (fsRead fs (scriptPath scriptName))
  else .raised (.fileNotFound ("Script " ++ scriptName ++ ".m not found"))

/-! ### `_output_capture` as a scoped resource over the engine command stream

For the guaranteed-release property the relevant observable is the sequence of
commands issued to the engine.  `outputCapture` is the generator-based context
manager: the `try` covers the `diary(...)` start instruction and the enclosed
body, and the `finally` issues `diary off` on every exit path. -/

def diaryOnCmd (identifier : String) : String :=
  "diary('" ++ tempOutputName identifier ++ "')"

def diaryOffCmd : String := "diary off"

/-- `MATLABExecutor._output_capture(identifier)` wrapped around a `with` body.
The body receives the yielded temp-file path and the command trace so far, and
finishes with a value or a raised exception plus the extended trace. -/
def outputCapture {α : Type} (diaryOnRaises : Bool) (identifier : String)
    (body : String → List String → Outcome α × List String)
    (tr : List String) : Outcome α × List String :=
  let tempFile := tempOutputName identifier
  let tr1 := tr ++ [diaryOnCmd identifier]
  let r :=
    if diaryOnRaises then ((Outcome.raised (.engineError "diary start failed") : Outcome α), tr1)
    else body tempFile tr1
  (r.1, r.2 ++ [diaryOffCmd])

/-! ### Concrete engine behaviours and filesystems used as evaluation fixtures -/

/-- A fully successful run: the script prints `hello`, opens one figure, and
leaves `x` (and the reserved `args`) in the workspace. -/
def engOk : EngineSpec where
  closeRaises := false
  closeMsg := "close failed"
  diaryOnRaises := false
  diaryOnMsg := "diary start failed"
  runRaises := false
  runMsg := "boom"
  writesOutput := true
  outputText := "hello\n"
  returnValue := fun as => "got " ++ toString as.length
  figHandles := 1
  figSaveRaises := fun _ => false
  figBytes := fun i => "PNG" ++ toString i
  workspaceAfter := fun _ => [("x", "5"), ("args", "7")]

/-- A run in which the interpreter writes some console output and then raises
from the evaluated script. -/
def engLeak : EngineSpec :=
  { engOk with runRaises := true, runMsg := "boom" }

/-- A run in which the engine's `close('all', ...)` call raises. -/
def engCloseBoom : EngineSpec :=
  { engOk with closeRaises := true }

/-- Storage holding one plain script artifact. -/
def fsScript : FS := [("src/myscript.m", "disp(args.a + args.b);")]

/-- Storage holding one function artifact (its trimmed content starts with
`function`). -/
def fsFn : FS := [("src/myfn.m", "function y = myfn(a, b)\ny = a + b;\nend")]

/-- A 1001-character display string, strictly longer than `MAX_OUTPUT_LENGTH`. -/
def longVal : String := ⟨List.replicate 1001 'a'⟩

/-! ## Lemmas -/

theorem convertList_eq_map (xs : List PyVal) :
    convertList xs = xs.map convertToMatlabTypes := by
  induction xs with
  | nil => rfl
  | cons x xs ih => simp [convertList, ih]

theorem convertEntries_eq_map (es : List (String × PyVal)) :
    convertEntries es = es.map (fun e => (e.1, convertToMatlabTypes e.2)) := by
  induction es with
  | nil => rfl
  | cons e es ih => cases e; simp [convertEntries, ih]

theorem fsExists_eq_false_iff (fs : FS) (p : String) :
    fsExists fs p = false ↔ ∀ e ∈ fs, e.1 ≠ p := by
  simp [fsExists, List.any_eq_true]

theorem fsExists_fsUnlink_self (fs : FS) (p : String) :
    fsExists (fsUnlink fs p) p = false := by
  rw [fsExists_eq_false_iff]
  intro e he
  have := (List.mem_filter.mp he).2
  simpa using this

theorem fsExists_fsUnlink_absent (fs : FS) (p q : String)
    (h : fsExists fs q = false) : fsExists (fsUnlink fs p) q = false := by
  rw [fsExists_eq_false_iff] at h ⊢
  intro e he
  exact h e (List.mem_filter.mp he).1

theorem fsExists_fsWrite_self (fs : FS) (p c : String) :
    fsExists (fsWrite fs p c) p = true := by
  simp [fsWrite, fsExists, List.any_eq_true]

theorem fsExists_fsWrite_absent (fs : FS) (p c : String) (q : String)
    (h : fsExists fs q = false) (hne : q ≠ p) :
    fsExists (fsWrite fs p c) q = false := by
  rw [fsExists_eq_false_iff] at h ⊢
  intro e he
  rcases List.mem_append.mp he with he1 | he1
  · exact h e (List.mem_filter.mp he1).1
  · rcases List.mem_singleton.mp he1 with rfl
    exact fun hpq => hne hpq.symm

theorem find?_fsUnlink_self (fs : FS) (p : String) :
    List.find? (fun e => e.1 = p) (fsUnlink fs p) = none := by
  apply List.find?_eq_none.mpr
  intro e he
  have := (List.mem_filter.mp he).2
  simpa using this

theorem fsRead_fsWrite_self (fs : FS) (p c : String) :
    fsRead (fsWrite fs p c) p = c := by
  rw [fsRead, fsWrite, List.find?_append, find?_fsUnlink_self]
  simp [List.find?]

theorem readCapturedOutput_snd_absent (fs : FS) (tmp : String) :
    fsExists (readCapturedOutput fs tmp).2 tmp = false := by
  unfold readCapturedOutput
  by_cases h : fsExists fs tmp
  · rw [if_pos h]; exact fsExists_fsUnlink_self fs tmp
  · rw [if_neg h]; simpa using h

theorem readCapturedOutput_absent (fs : FS) (tmp q : String)
    (h : fsExists fs q = false) :
    fsExists (readCapturedOutput fs tmp).2 q = false := by
  unfold readCapturedOutput
  by_cases h1 : fsExists fs tmp
  · rw [if_pos h1]; exact fsExists_fsUnlink_absent fs tmp q h
  · rw [if_neg h1]; exact h

theorem captureFiguresFrom_absent (eng : EngineSpec) :
    ∀ (n i : Nat) (fs : FS) (q : String), fsExists fs q = false →
      fsExists (captureFiguresFrom eng i n fs).2 q = false := by
  intro n
  induction n with
  | zero => intro i fs q h; exact h
  | succ n ih =>
    intro i fs q h
    unfold captureFiguresFrom
    by_cases h1 : eng.figSaveRaises i
    · rw [if_pos h1]; exact fsExists_fsUnlink_absent fs (tempFigName i) q h
    · rw [if_neg h1]
      have h2 : fsExists (fsUnlink (fsWrite fs (tempFigName i) (eng.figBytes i)) (tempFigName i)) q = false := by
        by_cases hq : q = tempFigName i
        · subst hq; exact fsExists_fsUnlink_self _ _
        · exact fsExists_fsUnlink_absent _ _ _ (fsExists_fsWrite_absent fs _ _ q h hq)
      rcases hrec : captureFiguresFrom eng (i + 1) n
          (fsUnlink (fsWrite fs (tempFigName i) (eng.figBytes i)) (tempFigName i)) with ⟨o, fs3⟩
      have := ih (i + 1) _ q h2
      rw [hrec] at this
      cases o <;> simpa [hrec] using this

theorem captureFigures_absent (eng : EngineSpec) (fs : FS) (q : String)
    (h : fsExists fs q = false) :
    fsExists (captureFigures eng fs).2 q = false := by
  unfold captureFigures
  by_cases h1 : eng.figHandles = 0
  · rw [if_pos h1]; exact h
  · rw [if_neg h1]; exact captureFiguresFrom_absent eng _ 0 fs q h

/-- A per-figure temp file name is never the capture file name: the former
ends in `g`, the latter in `m`. -/
theorem tempFigName_ne_tempOutputName (i : Nat) (s : String) :
    tempFigName i ≠ tempOutputName s := by
  intro h
  have h2 : (tempFigName i).data.getLast? = (tempOutputName s).data.getLast? := by rw [h]
  unfold tempFigName tempOutputName at h2
  rw [String.data_append ("src/temp_fig_" ++ toString i) ".png", List.getLast?_append,
      String.data_append ("src/temp_output_" ++ s) ".m", List.getLast?_append] at h2
  simp at h2

/-- The pipeline body of `execute_script` can create only the capture file:
any other file absent before stays absent, on every exit path. -/
theorem execPipelineScript_absent (eng : EngineSpec) (fs : FS) (name : String)
    (args : Option (List (String × PyVal))) (q : String)
    (hq : q ≠ tempOutputName name) (h : fsExists fs q = false) :
    fsExists (execPipelineScript eng fs name args).2 q = false := by
  unfold execPipelineScript
  by_cases h1 : eng.diaryOnRaises
  · rw [if_pos h1]; exact h
  · rw [if_neg h1]
    have hfs1 : fsExists (if eng.writesOutput then
        fsWrite fs (tempOutputName name) eng.outputText else fs) q = false := by
      by_cases hw : eng.writesOutput
      · rw [if_pos hw]; exact fsExists_fsWrite_absent fs _ _ q h hq
      · rw [if_neg hw]; exact h
    by_cases h2 : eng.runRaises
    · rw [if_pos h2]; exact hfs1
    · rw [if_neg h2]
      have hro : fsExists (readCapturedOutput (if eng.writesOutput then
          fsWrite fs (tempOutputName name) eng.outputText else fs) (tempOutputName name)).2 q = false :=
        readCapturedOutput_absent _ _ q hfs1
      have hcf := captureFigures_absent eng _ q hro
      rcases hcfe : captureFigures eng (readCapturedOutput (if eng.writesOutput then
          fsWrite fs (tempOutputName name) eng.outputText else fs) (tempOutputName name)).2 with ⟨o, fs3⟩
      rw [hcfe] at hcf
      cases o <;> simpa [hcfe] using hcf

/-- Same frame property for the pipeline body of `call_function`. -/
theorem execPipelineFn_absent (eng : EngineSpec) (fs : FS) (name : String)
    (args : List PyVal) (q : String)
    (hq : q ≠ tempOutputName name) (h : fsExists fs q = false) :
    fsExists (execPipelineFn eng fs name args).2 q = false := by
  unfold execPipelineFn
  by_cases h1 : eng.diaryOnRaises
  · rw [if_pos h1]; exact h
  · rw [if_neg h1]
    have hfs1 : fsExists (if eng.writesOutput then
        fsWrite fs (tempOutputName name) eng.outputText else fs) q = false := by
      by_cases hw : eng.writesOutput
      · rw [if_pos hw]; exact fsExists_fsWrite_absent fs _ _ q h hq
      · rw [if_neg hw]; exact h
    by_cases h2 : eng.runRaises
    · rw [if_pos h2]; exact hfs1
    · rw [if_neg h2]
      have hro : fsExists (readCapturedOutput (if eng.writesOutput then
          fsWrite fs (tempOutputName name) eng.outputText else fs) (tempOutputName name)).2 q = false :=
        readCapturedOutput_absent _ _ q hfs1
      have hcf := captureFigures_absent eng _ q hro
      rcases hcfe : captureFigures eng (readCapturedOutput (if eng.writesOutput then
          fsWrite fs (tempOutputName name) eng.outputText else fs) (tempOutputName name)).2 with ⟨o, fs3⟩
      rw [hcfe] at hcf
      cases o <;> simpa [hcfe] using hcf

/-- On a successful pipeline run the capture file has been read and deleted. -/
theorem execPipelineScript_ok_capture_deleted (eng : EngineSpec) (fs : FS)
    (name : String) (args : Option (List (String × PyVal))) (r : ExecResult) (fs1 : FS)
    (h : execPipelineScript eng fs name args = (.ok r, fs1)) :
    fsExists fs1 (tempOutputName name) = false := by
  unfold execPipelineScript at h
  by_cases h1 : eng.diaryOnRaises
  · rw [if_pos h1] at h; simp at h
  · rw [if_neg h1] at h
    by_cases h2 : eng.runRaises
    · rw [if_pos h2] at h; simp at h
    · rw [if_neg h2] at h
      dsimp only at h
      have hro : fsExists (readCapturedOutput (if eng.writesOutput then
          fsWrite fs (tempOutputName name) eng.outputText else fs) (tempOutputName name)).2
          (tempOutputName name) = false := readCapturedOutput_snd_absent _ _
      have hcf := captureFigures_absent eng _ (tempOutputName name) hro
      rcases hcfe : captureFigures eng (readCapturedOutput (if eng.writesOutput then
          fsWrite fs (tempOutputName name) eng.outputText else fs) (tempOutputName name)).2 with ⟨o, fs3⟩
      rw [hcfe] at hcf h
      cases o with
      | raised e => simp at h
      | ok figs =>
        simp only [Prod.mk.injEq] at h
        rw [← h.2]
        exact hcf

/-- On a successful `call_function` pipeline run the capture file is gone. -/
theorem execPipelineFn_ok_capture_deleted (eng : EngineSpec) (fs : FS)
    (name : String) (args : List PyVal) (r : ExecResult) (fs1 : FS)
    (h : execPipelineFn eng fs name args = (.ok r, fs1)) :
    fsExists fs1 (tempOutputName name) = false := by
  unfold execPipelineFn at h
  by_cases h1 : eng.diaryOnRaises
  · rw [if_pos h1] at h; simp at h
  · rw [if_neg h1] at h
    by_cases h2 : eng.runRaises
    · rw [if_pos h2] at h; simp at h
    · rw [if_neg h2] at h
      dsimp only at h
      have hro : fsExists (readCapturedOutput (if eng.writesOutput then
          fsWrite fs (tempOutputName name) eng.outputText else fs) (tempOutputName name)).2
          (tempOutputName name) = false := readCapturedOutput_snd_absent _ _
      have hcf := captureFigures_absent eng _ (tempOutputName name) hro
      rcases hcfe : captureFigures eng (readCapturedOutput (if eng.writesOutput then
          fsWrite fs (tempOutputName name) eng.outputText else fs) (tempOutputName name)).2 with ⟨o, fs3⟩
      rw [hcfe] at hcf h
      cases o with
      | raised e => simp at h
      | ok figs =>
        simp only [Prod.mk.injEq] at h
        rw [← h.2]
        exact hcf

/-- Every entry of `dictInsert d k v` is an entry of `d` or the pair `(k, v)`. -/
theorem mem_dictInsert (d : List (String × String)) (k v : String)
    (kv : String × String) (h : kv ∈ dictInsert d k v) : kv ∈ d ∨ kv = (k, v) := by
  unfold dictInsert at h
  by_cases h0 : d.any (fun p => p.1 = k)
  · rw [if_pos h0] at h
    rcases List.mem_map.mp h with ⟨p, hp, he⟩
    by_cases hk : p.1 = k
    · right; rw [if_pos hk] at he; exact he.symm
    · left; rw [if_neg hk] at he; exact he ▸ hp
  · rw [if_neg h0] at h
    rcases List.mem_append.mp h with h1 | h1
    · left; exact h1
    · right; exact List.mem_singleton.mp h1

/-- Every entry of the workspace snapshot comes from a workspace variable
outside the exclusion list, with the cleaned name as key and the truncated
display string as value. -/
theorem snapshot_mem (excl : List String) :
    ∀ (ws : List (String × String)) (acc : List (String × String)) (kv : String × String),
      kv ∈ ws.foldl (snapshotStep excl) acc →
      kv ∈ acc ∨ ∃ n s, (n, s) ∈ ws ∧ n ∉ excl ∧ kv.1 = cleanVarName n ∧ kv.2 = truncateVal s := by
  intro ws
  induction ws with
  | nil => intro acc kv h; exact Or.inl h
  | cons nv rest ih =>
    intro acc kv h
    rw [List.foldl_cons] at h
    rcases ih (snapshotStep excl acc nv) kv h with h1 | ⟨n, s, hmem, hexcl, hk, hv⟩
    · unfold snapshotStep at h1
      by_cases he : nv.1 ∈ excl
      · rw [if_pos he] at h1; exact Or.inl h1
      · rw [if_neg he] at h1
        rcases mem_dictInsert _ _ _ _ h1 with h2 | h2
        · exact Or.inl h2
        · right
          exact ⟨nv.1, nv.2, List.mem_cons_self _ _, he, by rw [h2], by rw [h2]⟩
    · right
      exact ⟨n, s, List.mem_cons_of_mem _ hmem, hexcl, hk, hv⟩

/-- Characters of a MATLAB name are never stripped as whitespace. -/
theorem identChar_not_space (c : Char) (h : isIdentChar c = true) :
    pyIsSpace c = false := by
  cases hs : pyIsSpace c with
  | false => rfl
  | true =>
    simp only [pyIsSpace, Bool.or_eq_true, beq_iff_eq] at hs
    rcases hs with ((((rfl | rfl) | rfl) | rfl) | rfl) | rfl <;> exact absurd h (by decide)

theorem identChar_not_space_char (c : Char) (h : isIdentChar c = true) :
    (c == ' ') = false := by
  cases he : c == ' ' with
  | false => rfl
  | true =>
    rcases beq_iff_eq.mp he with rfl
    exact absurd h (by decide)

theorem dropWhile_eq_self_of_none (p : Char → Bool) (l : List Char)
    (h : ∀ c ∈ l, p c = false) : l.dropWhile p = l := by
  cases l with
  | nil => rfl
  | cons x xs =>
    rw [List.dropWhile_cons_of_neg]
    simp [h x (List.mem_cons_self x xs)]

theorem map_eq_self_of_fixed (f : Char → Char) (l : List Char)
    (h : ∀ c ∈ l, f c = c) : l.map f = l := by
  induction l with
  | nil => rfl
  | cons x xs ih =>
    rw [List.map_cons, h x (List.mem_cons_self x xs), ih]
    intro c hc
    exact h c (List.mem_cons_of_mem _ hc)

/-- A name made of identifier characters is untouched by
`strip().replace(' ', '_')`. -/
theorem cleanVarName_of_ident (v : String) (h : v.data.all isIdentChar = true) :
    cleanVarName v = v := by
  rw [List.all_eq_true] at h
  have hstrip : pyStrip v = v := by
    unfold pyStrip
    rw [dropWhile_eq_self_of_none pyIsSpace v.data
        (fun c hc => identChar_not_space c (h c hc))]
    rw [dropWhile_eq_self_of_none pyIsSpace v.data.reverse
        (fun c hc => identChar_not_space c (h c (List.mem_reverse.mp hc)))]
    rw [List.reverse_reverse]
  unfold cleanVarName
  rw [hstrip]
  unfold pyReplaceSpace
  rw [map_eq_self_of_fixed _ v.data (fun c hc => by
    rw [identChar_not_space_char c (h c hc)]; simp)]

/-! ## Claims -/

/-- C3, counterexample: the claim says every boolean is returned unchanged by
the marshaller, but Python's `bool` is a subclass of `int`, so
`isinstance(True, (int, float))` holds and `True` is converted to
`matlab.double([True])` rather than passed through. -/
theorem claim_C3_counterexample :
    convertToMatlabTypes (.vBool true) ≠ .vBool true ∧
    convertToMatlabTypes (.vBool true) = .vDouble [.vBool true] :=
  ⟨by simp [convertToMatlabTypes], rfl⟩

/-- C3 (amended): `_convert_to_matlab_types` maps a dict to a dict with the
same keys and recursively marshalled values; a list whose elements all satisfy
`isinstance(x, (int, float))` — which includes booleans — to a native dense
numeric array; any other list element-wise; a scalar int, float, or bool to a
single-element native numeric array; and a string unchanged. -/
theorem claim_C3_marshal :
    (∀ es, convertToMatlabTypes (.vDict es) =
        .vDict (es.map (fun e => (e.1, convertToMatlabTypes e.2))))
  ∧ (∀ xs, xs.all isNumberInstance = true →
        convertToMatlabTypes (.vList xs) = .vDouble xs)
  ∧ (∀ xs, xs.all isNumberInstance = false →
        convertToMatlabTypes (.vList xs) = .vList (xs.map convertToMatlabTypes))
  ∧ (∀ n : Int, convertToMatlabTypes (.vInt n) = .vDouble [.vInt n])
  ∧ (∀ t : Int, convertToMatlabTypes (.vFloat t) = .vDouble [.vFloat t])
  ∧ (∀ b : Bool, convertToMatlabTypes (.vBool b) = .vDouble [.vBool b])
  ∧ (∀ s : String, convertToMatlabTypes (.vStr s) = .vStr s) := by
  refine ⟨fun es => ?_, fun xs h => ?_, fun xs h => ?_,
    fun n => rfl, fun t => rfl, fun b => rfl, fun s => rfl⟩
  · simp [convertToMatlabTypes, convertEntries_eq_map]
  · simp [convertToMatlabTypes, h]
  · simp [convertToMatlabTypes, h, convertList_eq_map]

/-- Witness for C3: a numeric list (with a boolean member) becomes a dense
array, and a mixed list is marshalled element-wise. -/
theorem claim_C3_marshal_witness :
    convertToMatlabTypes (.vList [.vInt 1, .vBool true]) = .vDouble [.vInt 1, .vBool true]
  ∧ convertToMatlabTypes (.vList [.vStr "a", .vInt 2]) =
      .vList ([.vStr "a", .vInt 2].map convertToMatlabTypes) :=
  ⟨claim_C3_marshal.2.1 _ rfl, claim_C3_marshal.2.2.1 _ rfl⟩

/-- C4: a display string longer than `MAX_OUTPUT_LENGTH` (1000) is replaced by
exactly its first 1000 characters followed by the truncation marker, a string
of at most 1000 characters is kept unchanged, and every value stored in the
workspace snapshot is the truncation of some variable's display string. -/
theorem claim_C4_truncation :
    (∀ s, MAX_OUTPUT_LENGTH < pyLen s →
        truncateVal s = pyTake s MAX_OUTPUT_LENGTH ++ "... [truncated]")
  ∧ (∀ s, pyLen s ≤ MAX_OUTPUT_LENGTH → truncateVal s = s)
  ∧ (∀ excl ws kv, kv ∈ getWorkspaceVariables excl ws →
        ∃ n s, (n, s) ∈ ws ∧ n ∉ resolveExclude excl ∧
          kv.1 = cleanVarName n ∧ kv.2 = truncateVal s) := by
  refine ⟨fun s h => ?_, fun s h => ?_, fun excl ws kv h => ?_⟩
  · unfold truncateVal; rw [if_pos h]
  · unfold truncateVal; rw [if_neg (by omega)]
  · rcases snapshot_mem (resolveExclude excl) ws [] kv h with h1 | h2
    · exact absurd h1 (List.not_mem_nil _)
    · exact h2

/-- Witness for C4: a 1001-character string is truncated, a short string is
kept, and the snapshot of a one-variable workspace holds that variable's
truncated display string. -/
theorem claim_C4_truncation_witness :
    truncateVal longVal = pyTake longVal MAX_OUTPUT_LENGTH ++ "... [truncated]"
  ∧ truncateVal "ab" = "ab"
  ∧ ∃ n s, (n, s) ∈ [("x", "ab")] ∧ n ∉ resolveExclude none ∧
      ("x", "ab").1 = cleanVarName n ∧ ("x", "ab").2 = truncateVal s :=
  ⟨claim_C4_truncation.1 longVal (by
     have h : pyLen longVal = 1001 := List.length_replicate 1001 'a'
     rw [h]; decide),
   claim_C4_truncation.2.1 "ab" (by decide),
   claim_C4_truncation.2.2 none [("x", "ab")] ("x", "ab") (by
     rw [show getWorkspaceVariables none [("x", "ab")] = [("x", "ab")] from rfl]
     exact List.mem_singleton.mpr rfl)⟩

/-- C5: for every workspace whose bound names are MATLAB names (as `who`
returns them: alphanumerics and underscores, so untouched by name cleaning),
the snapshot taken with the default exclusion never contains the key `args`,
even when a variable named `args` is bound. -/
theorem claim_C5_args_excluded (ws : List (String × String))
    (h : ∀ kv ∈ ws, isMatlabName kv.1 = true) (v : String) :
    ("args", v) ∉ getWorkspaceVariables none ws := by
  intro hmem
  rcases snapshot_mem (resolveExclude none) ws [] ("args", v) hmem with h1 | ⟨n, s, hmem2, hexcl, hk, _⟩
  · exact absurd h1 (List.not_mem_nil _)
  · have hn := h (n, s) hmem2
    rw [isMatlabName, Bool.and_eq_true] at hn
    have hclean : cleanVarName n = n := cleanVarName_of_ident n hn.2
    have hne : n = "args" := by rw [← hclean, ← hk]
    rw [resolveExclude] at hexcl
    exact hexcl (hne ▸ List.mem_singleton.mpr rfl)

/-- Witness for C5: even with `args` bound in the workspace, the snapshot does
not contain it. -/
theorem claim_C5_args_excluded_witness :
    ("args", "7") ∉ getWorkspaceVariables none [("args", "7"), ("x", "5")] :=
  claim_C5_args_excluded [("args", "7"), ("x", "5")] (by decide) "7"

/-- C8: the scoped output capture issues the `diary off` stop instruction as
the last engine command of the scope on every exit path — whatever the
enclosed body does, including raising, and even when starting the diary
raised. -/
theorem claim_C8_diary_off_always (α : Type) (diaryOnRaises : Bool)
    (identifier : String) (body : String → List String → Outcome α × List String)
    (tr : List String) :
    ∃ pre, (outputCapture diaryOnRaises identifier body tr).2 = pre ++ [diaryOffCmd] := by
  unfold outputCapture
  exact ⟨_, rfl⟩

/-- A strict MATLAB identifier contains no dot, hence no `.m` suffix. -/
theorem isMatlabIdent_no_m_suffix (n : String) (h : isMatlabIdent n = true) :
    pyEndsWithM n ".m" = false := by
  cases he : pyEndsWithM n ".m" with
  | false => rfl
  | true =>
    rw [pyEndsWithM, List.isSuffixOf_iff_suffix] at he
    have hdot : '.' ∈ n.data := he.subset (by decide)
    rcases hd : n.data with _ | ⟨c, rest⟩
    · rw [hd] at hdot; exact absurd hdot (List.not_mem_nil _)
    · simp only [isMatlabIdent, hd, Bool.and_eq_true] at h
      rw [hd] at hdot
      rcases List.mem_cons.mp hdot with hdot | hdot

      · rw [← hdot] at h; exact absurd h.1 (by decide)
      · have := (List.all_eq_true.mp h.2) '.' hdot
        exact absurd this (by decide)

/-- A strict MATLAB identifier passes `create_matlab_file`'s stem check. -/
theorem isMatlabIdent_validStem (n : String) (h : isMatlabIdent n = true) :
    isValidStem n = true := by
  rcases hd : n.data with _ | ⟨c, rest⟩
  · simp only [isMatlabIdent, hd] at h
    exact Bool.noConfusion h
  · simp only [isMatlabIdent, hd, Bool.and_eq_true] at h
    have hcu : (c == '_') = false := by
      cases hcu : c == '_' with
      | false => rfl
      | true => rcases beq_iff_eq.mp hcu with rfl; exact absurd h.1 (by decide)
    unfold isValidStem
    rw [hd]
    rw [List.filter_cons]
    simp only [hcu]
    rw [Bool.and_eq_true]
    constructor
    · simp
    · rw [List.all_eq_true]
      intro x hx
      rcases List.mem_cons.mp hx with rfl | hx
      · simp [Char.isAlphanum, h.1]
      · have hmem := List.mem_filter.mp hx
        have hid := (List.all_eq_true.mp h.2) x hmem.1
        rw [isIdentChar, Bool.or_eq_true] at hid
        rcases hid with hid | hid
        · exact hid
        · exact absurd hid (by simpa using hmem.2)

/-- Dropping the two appended characters of `".m"` restores the name. -/
theorem pyDropRight_append_m (n : String) : pyDropRight (n ++ ".m") 2 = n := by
  unfold pyDropRight
  rw [String.data_append n ".m"]
  have h2 : (".m".data : List Char).length = 2 := rfl
  rw [show (n.data ++ ".m".data).length - 2 = n.data.length from by
    rw [List.length_append, h2]; omega]
  rw [List.take_left]

theorem strAppend_assoc (a b c : String) : a ++ b ++ c = a ++ (b ++ c) := by
  cases a; cases b; cases c
  exact congrArg String.mk (List.append_assoc _ _ _)

/-- C9: creating a script under a valid identifier and then reading the script
resource for that identifier returns exactly the code text that was written. -/
theorem claim_C9_roundtrip (fs : FS) (n c : String) (h : isMatlabIdent n = true) :
    ∃ d fs1, createMatlabFile fs n c = (.ok d, fs1) ∧ getContents fs1 n = .ok c := by
  have hns : pyEndsWithM n ".m" = false := isMatlabIdent_no_m_suffix n h
  have hw : withMExt n = n ++ ".m" := by simp [withMExt, hns]
  have hvalid : isValidStem (pyDropRight (withMExt n) 2) = true := by
    rw [hw, pyDropRight_append_m]
    exact isMatlabIdent_validStem n h
  unfold createMatlabFile
  dsimp only
  rw [if_neg (by simp [hvalid])]
  refine ⟨_, _, rfl, ?_⟩
  have hpath : scriptPath n = "src/" ++ withMExt n := by
    unfold scriptPath
    rw [hw, strAppend_assoc]
  unfold getContents
  rw [hpath, if_pos (fsExists_fsWrite_self fs _ c), fsRead_fsWrite_self]

/-- Witness for C9: write-then-read of a concrete script is the identity. -/
theorem claim_C9_roundtrip_witness :
    ∃ d fs1, createMatlabFile [] "addnums" "disp(args.a + args.b);" = (.ok d, fs1) ∧
      getContents fs1 "addnums" = .ok "disp(args.a + args.b);" :=
  claim_C9_roundtrip [] "addnums" "disp(args.a + args.b);" (by decide)

/-- C7, counterexample: `create_matlab_file` — the only creation operation,
also serving function creation — accepts code whose trimmed text does not
start with a function declaration: it returns the debug record and writes the
file instead of failing. -/
theorem claim_C7_counterexample :
    pyStartsWith (pyStrip "x = 1") "function" = false
  ∧ (createMatlabFile [] "myscript" "x = 1").1 = .ok
      { filename := "myscript.m", codeLength := 5, fileCreated := true,
        fileExistsAfterWrite := true, contentMatches := true, readContentLength := 5 }
  ∧ fsExists (createMatlabFile [] "myscript" "x = 1").2 "src/myscript.m" = true := by
  refine ⟨rfl, by decide, by decide⟩

/-- C7 (amended): `create_matlab_file` never inspects the code text — for any
filename whose stem passes the `isalnum`-after-removing-underscores check it
writes arbitrary code (function header or not) and succeeds; only invalid
filenames are rejected. -/
theorem claim_C7_create_accepts_any_code (fs : FS) (filename code : String)
    (h : isValidStem (pyDropRight (withMExt filename) 2) = true) :
    ∃ d fs1, createMatlabFile fs filename code = (.ok d, fs1) ∧
      fsRead fs1 ("src/" ++ withMExt filename) = code := by
  unfold createMatlabFile
  dsimp only
  rw [if_neg (by simp [h])]
  exact ⟨_, _, rfl, fsRead_fsWrite_self fs _ code⟩

/-- Witness for C7: a concrete non-function code text is accepted and written. -/
theorem claim_C7_create_accepts_any_code_witness :
    ∃ d fs1, createMatlabFile [] "plainscript" "x = 1" = (.ok d, fs1) ∧
      fsRead fs1 ("src/" ++ withMExt "plainscript") = "x = 1" :=
  claim_C7_create_accepts_any_code [] "plainscript" "x = 1" (by decide)

/-- A successful `execute_script` is a successful pipeline body: the two
boundary checks did not fire. -/
theorem executeScript_ok_pipeline (eng : EngineSpec) (fs : FS) (name : String)
    (args : Option (List (String × PyVal))) (r : ExecResult) (fs1 : FS)
    (h : executeScript eng fs name args = (.ok r, fs1)) :
    execPipelineScript eng fs name args = (.ok r, fs1) := by
  unfold executeScript at h
  by_cases h1 : fsExists fs (scriptPath name) = false
  · rw [if_pos h1] at h; simp at h
  · rw [if_neg h1] at h
    by_cases h2 : eng.closeRaises
    · rw [if_pos h2] at h; simp at h
    · rw [if_neg h2] at h
      rcases hp : execPipelineScript eng fs name args with ⟨o, fs2⟩
      rw [hp] at h
      cases o with
      | ok r2 => dsimp only at h; exact h
      | raised e => dsimp only at h; exact absurd h (by simp)

/-- A successful `call_function` is a successful pipeline body. -/
theorem callFunction_ok_pipeline (eng : EngineSpec) (fs : FS) (name : String)
    (args : List PyVal) (r : ExecResult) (fs1 : FS)
    (h : callFunction eng fs name args = (.ok r, fs1)) :
    execPipelineFn eng fs name args = (.ok r, fs1) := by
  unfold callFunction at h
  by_cases h1 : fsExists fs (scriptPath name) = false
  · rw [if_pos h1] at h; simp at h
  · rw [if_neg h1] at h
    by_cases h2 : eng.closeRaises
    · rw [if_pos h2] at h; simp at h
    · rw [if_neg h2] at h
      rcases hp : execPipelineFn eng fs name args with ⟨o, fs2⟩
      rw [hp] at h
      cases o with
      | ok r2 => dsimp only at h; exact h
      | raised e => dsimp only at h; exact absurd h (by simp)

/-- C1, counterexample: when the interpreter raises while evaluating the
script after having written console output, `execute_script` returns (as a
wrapped error) with `temp_output_myscript.m` still present on storage — the
capture file of that invocation was not deleted. -/
theorem claim_C1_counterexample :
    (executeScript engLeak fsScript "myscript" none).1 =
      .raised (.runtimeError "MATLAB execution error: boom")
  ∧ fsExists (executeScript engLeak fsScript "myscript" none).2
      (tempOutputName "myscript") = true :=
  ⟨by decide, by decide⟩

/-- C1 (amended): on a successful invocation of `execute_script` or
`call_function` the capture-output file of that invocation is deleted before
returning, and a per-figure temp file that was absent before an invocation is
still absent after it on every exit path; but when the interpreter raises
mid-invocation the capture-output file may remain. -/
theorem claim_C1_cleanup :
    (∀ eng fs name args r fs1, executeScript eng fs name args = (.ok r, fs1) →
        fsExists fs1 (tempOutputName name) = false)
  ∧ (∀ eng fs name args i, fsExists fs (tempFigName i) = false →
        fsExists (executeScript eng fs name args).2 (tempFigName i) = false)
  ∧ (∀ eng fs name args r fs1, callFunction eng fs name args = (.ok r, fs1) →
        fsExists fs1 (tempOutputName name) = false)
  ∧ (∀ eng fs name args i, fsExists fs (tempFigName i) = false →
        fsExists (callFunction eng fs name args).2 (tempFigName i) = false) := by
  refine ⟨?_, ?_, ?_, ?_⟩
  · intro eng fs name args r fs1 h
    exact execPipelineScript_ok_capture_deleted eng fs name args r fs1
      (executeScript_ok_pipeline eng fs name args r fs1 h)
  · intro eng fs name args i h
    unfold executeScript
    by_cases h1 : fsExists fs (scriptPath name) = false
    · rw [if_pos h1]; exact h
    · rw [if_neg h1]
      by_cases h2 : eng.closeRaises
      · rw [if_pos h2]; exact h
      · rw [if_neg h2]
        have hp := execPipelineScript_absent eng fs name args (tempFigName i)
          (tempFigName_ne_tempOutputName i name) h
        rcases he : execPipelineScript eng fs name args with ⟨o, fs2⟩
        rw [he] at hp
        cases o <;> simpa using hp
  · intro eng fs name args r fs1 h
    exact execPipelineFn_ok_capture_deleted eng fs name args r fs1
      (callFunction_ok_pipeline eng fs name args r fs1 h)
  · intro eng fs name args i h
    unfold callFunction
    by_cases h1 : fsExists fs (scriptPath name) = false
    · rw [if_pos h1]; exact h
    · rw [if_neg h1]
      by_cases h2 : eng.closeRaises
      · rw [if_pos h2]; exact h
      · rw [if_neg h2]
        have hp := execPipelineFn_absent eng fs name args (tempFigName i)
          (tempFigName_ne_tempOutputName i name) h
        rcases he : execPipelineFn eng fs name args with ⟨o, fs2⟩
        rw [he] at hp
        cases o <;> simpa using hp

/-- Witness for C1: a concrete successful script run and function call leave
neither the capture file nor a figure file behind. -/
theorem claim_C1_cleanup_witness :
    fsExists fsScript (tempOutputName "myscript") = false
  ∧ fsExists (executeScript engOk fsScript "myscript" none).2 (tempFigName 0) = false
  ∧ fsExists fsFn (tempOutputName "myfn") = false
  ∧ fsExists (callFunction engOk fsFn "myfn" [.vInt 1]).2 (tempFigName 0) = false :=
  ⟨claim_C1_cleanup.1 engOk fsScript "myscript" none
     { printedOutput := some "hello", figures := ["PNG0"], vars := [("x", "5")] }
     fsScript (by decide),
   claim_C1_cleanup.2.1 engOk fsScript "myscript" none 0 (by decide),
   claim_C1_cleanup.2.2.1 engOk fsFn "myfn" [.vInt 1]
     { printedOutput := some "hello", output := some "got 1", figures := ["PNG0"] }
     fsFn (by decide),
   claim_C1_cleanup.2.2.2 engOk fsFn "myfn" [.vInt 1] 0 (by decide)⟩

/-- C2, counterexample: the figure-clearing step (step 2 of the pipeline) runs
before the `try` block, so when the engine's `close('all')` raises, the
native engine exception propagates to the caller unwrapped instead of being
re-raised as the execution-error kind. -/
theorem claim_C2_counterexample :
    executeScript engCloseBoom fsScript "myscript" none =
      (.raised (.engineError "close failed"), fsScript) := by decide

/-- C2 (amended): once the artifact exists and the figure-clearing step
succeeded, every exception raised in the remaining pipeline steps (bind and
marshal args, capture, invoke, read output, harvest figures, snapshot) is
re-raised as `RuntimeError("MATLAB execution error: " + str(e))` with the
original message embedded — for both `execute_script` and `call_function`;
only the figure-clearing step raises natively. -/
theorem claim_C2_wrapping :
    (∀ eng fs name args e fs1, fsExists fs (scriptPath name) = true →
        eng.closeRaises = false →
        executeScript eng fs name args = (.raised e, fs1) →
        ∃ m, e = .runtimeError ("MATLAB execution error: " ++ m))
  ∧ (∀ eng fs name args e fs1, fsExists fs (scriptPath name) = true →
        eng.closeRaises = false →
        callFunction eng fs name args = (.raised e, fs1) →
        ∃ m, e = .runtimeError ("MATLAB execution error: " ++ m)) := by
  constructor
  · intro eng fs name args e fs1 h1 h2 h
    unfold executeScript at h
    rw [if_neg (by simp [h1]), if_neg (by simp [h2])] at h
    rcases hp : execPipelineScript eng fs name args with ⟨o, fs2⟩
    rw [hp] at h
    cases o with
    | ok r => dsimp only at h; exact absurd h (by simp)
    | raised e0 =>
      dsimp only at h
      refine ⟨exnMsg e0, ?_⟩
      have h3 := congrArg Prod.fst h
      simpa using h3.symm
  · intro eng fs name args e fs1 h1 h2 h
    unfold callFunction at h
    rw [if_neg (by simp [h1]), if_neg (by simp [h2])] at h
    rcases hp : execPipelineFn eng fs name args with ⟨o, fs2⟩
    rw [hp] at h
    cases o with
    | ok r => dsimp only at h; exact absurd h (by simp)
    | raised e0 =>
      dsimp only at h
      refine ⟨exnMsg e0, ?_⟩
      have h3 := congrArg Prod.fst h
      simpa using h3.symm

/-- Witness for C2: the concrete raising run surfaces as a wrapped
`RuntimeError` with the original message embedded. -/
theorem claim_C2_wrapping_witness :
    ∃ m, PyExn.runtimeError "MATLAB execution error: boom" =
      .runtimeError ("MATLAB execution error: " ++ m) :=
  claim_C2_wrapping.1 engLeak fsScript "myscript" none
    (.runtimeError "MATLAB execution error: boom")
    [("src/myscript.m", "disp(args.a + args.b);"), ("src/temp_output_myscript.m", "hello\n")]
    (by decide) (by decide) (by decide)

/-- C6: for an existing artifact, `run_file` dispatches on the file's trimmed
leading content: a `function` header delegates to `call_function` with the
mapping argument reduced to its values ordered by sorted key
(`runFileArgsList`), anything else delegates to `execute_script` with the
arguments unchanged — in both cases under `run_file`'s error-catching wrapper. -/
theorem claim_C6_dispatch (eng : EngineSpec) (fs : FS) (p : String)
    (args : Option (List (String × PyVal)))
    (hex : fsExists fs (resolvePath (withMExt p)) = true) :
    (pyStartsWith (pyStrip (fsRead fs (resolvePath (withMExt p)))) "function" = true →
       runFile eng fs p args =
         runFileCatch (callFunction eng fs (stemOf (resolvePath (withMExt p)))
           (runFileArgsList args)))
  ∧ (pyStartsWith (pyStrip (fsRead fs (resolvePath (withMExt p)))) "function" = false →
       runFile eng fs p args =
         runFileCatch (executeScript eng fs (stemOf (resolvePath (withMExt p))) args)) := by
  constructor
  · intro hf
    unfold runFile
    rw [if_neg (by simp [hex])]
    dsimp only
    rw [if_pos hf]
  · intro hf
    unfold runFile
    rw [if_neg (by simp [hex])]
    dsimp only
    rw [if_neg (by simp [hf])]

/-- Witness for C6: a function fixture dispatches to `call_function` with the
key-sorted values, a script fixture to `execute_script` with args unchanged. -/
theorem claim_C6_dispatch_witness :
    runFile engOk fsFn "myfn" (some [("b", .vInt 2), ("a", .vInt 1)]) =
      runFileCatch (callFunction engOk fsFn
        (stemOf (resolvePath (withMExt "myfn")))
        (runFileArgsList (some [("b", .vInt 2), ("a", .vInt 1)])))
  ∧ runFile engOk fsScript "myscript" none =
      runFileCatch (executeScript engOk fsScript
        (stemOf (resolvePath (withMExt "myscript"))) none) :=
  ⟨(claim_C6_dispatch engOk fsFn "myfn" (some [("b", .vInt 2), ("a", .vInt 1)])
      (by decide)).1 (by decide),
   (claim_C6_dispatch engOk fsScript "myscript" none (by decide)).2 (by decide)⟩

/-- C10: `run_file` raises only `FileNotFoundError`, before any dispatch and
without touching storage; when the file exists it always returns a result
record, converting any exception from reading/dispatching/executing into the
record's `error` field — unlike `execute_script`, which raises on execution
failure (third conjunct shows a concrete raising run). -/
theorem claim_C10_runfile_no_raise :
    (∀ eng fs p args e fs1, runFile eng fs p args = (.raised e, fs1) →
        (∃ m, e = .fileNotFound m) ∧ fs1 = fs ∧
          fsExists fs (resolvePath (withMExt p)) = false)
  ∧ (∀ eng fs p args, fsExists fs (resolvePath (withMExt p)) = true →
        ∃ r fs1, runFile eng fs p args = (.ok r, fs1))
  ∧ (executeScript engLeak fsScript "myscript" none).1 =
      .raised (.runtimeError "MATLAB execution error: boom") := by
  refine ⟨?_, ?_, by decide⟩
  · intro eng fs p args e fs1 h
    unfold runFile at h
    by_cases h1 : fsExists fs (resolvePath (withMExt p)) = false
    · rw [if_pos h1] at h
      have h2 := congrArg Prod.fst h
      have h3 := congrArg Prod.snd h
      simp only at h2 h3
      refine ⟨⟨"MATLAB file not found: " ++ resolvePath (withMExt p), ?_⟩, h3.symm, h1⟩
      simpa using h2.symm
    · rw [if_neg h1] at h
      dsimp only at h
      by_cases h4 : pyStartsWith (pyStrip (fsRead fs (resolvePath (withMExt p)))) "function" = true
      · rw [if_pos h4] at h
        rcases hx : callFunction eng fs (stemOf (resolvePath (withMExt p)))
            (runFileArgsList args) with ⟨o, fs2⟩
        rw [hx] at h
        cases o <;> exact absurd h (by simp [runFileCatch])
      · rw [if_neg h4] at h
        rcases hx : executeScript eng fs (stemOf (resolvePath (withMExt p))) args with ⟨o, fs2⟩
        rw [hx] at h
        cases o <;> exact absurd h (by simp [runFileCatch])
  · intro eng fs p args h1
    unfold runFile
    rw [if_neg (by simp [h1])]
    dsimp only
    by_cases h4 : pyStartsWith (pyStrip (fsRead fs (resolvePath (withMExt p)))) "function" = true
    · rw [if_pos h4]
      rcases hx : callFunction eng fs (stemOf (resolvePath (withMExt p)))
          (runFileArgsList args) with ⟨o, fs2⟩
      cases o with
      | ok r => exact ⟨r, fs2, rfl⟩
      | raised e0 => exact ⟨_, fs2, rfl⟩
    · rw [if_neg h4]
      rcases hx : executeScript eng fs (stemOf (resolvePath (withMExt p))) args with ⟨o, fs2⟩
      cases o with
      | ok r => exact ⟨r, fs2, rfl⟩
      | raised e0 => exact ⟨_, fs2, rfl⟩

/-- Witness for C10: an existing script yields a result record, a missing one
the `FileNotFoundError` analysis. -/
theorem claim_C10_runfile_no_raise_witness :
    (∃ r fs1, runFile engOk fsScript "myscript" none = (.ok r, fs1))
  ∧ ((∃ m, PyExn.fileNotFound "MATLAB file not found: src/nofile.m" = .fileNotFound m)
      ∧ ([] : FS) = ([] : FS)
      ∧ fsExists ([] : FS) (resolvePath (withMExt "nofile")) = false) :=
  ⟨claim_C10_runfile_no_raise.2.1 engOk fsScript "myscript" none (by decide),
   claim_C10_runfile_no_raise.1 engOk [] "nofile" none
     (.fileNotFound "MATLAB file not found: src/nofile.m") [] (by decide)⟩

end MatlabMCP
